import Mathlib

/-
Verification of the Hybrid A* kinematic path planner
(modules/planning/open_space/hybrid_a_star.cc) against its specification.

The embedding is parametric in a linear ordered field `α` (instantiated at `ℚ`
for concrete evaluation; the C++ code computes with `double`).  External
collaborators of the planner that are not part of the translated source
(the Reeds-Shepp curve generator, the trigonometric library functions,
`common::math::NormalizeAngle`, the oriented-box overlap test of `Box2d`,
and the constants `M_PI` / `std::sqrt(2)`) are modelled as oracle parameters
carried in a configuration/environment record, exactly at the interface the
planner consumes.
-/

set_option linter.unusedVariables false

/-- Discrete grid key: the triple (ix, iy, iphi) identifying a graph vertex. -/
abbrev GridKey : Type := ℤ × ℤ × ℤ

/-- Association-list lookup, mirroring `std::map::operator[]`-free lookups
(`find`).  Earlier entries shadow later ones; our insert never duplicates a
key, so this is exact map behaviour. -/
def afind? {κ ν : Type} [DecidableEq κ] : List (κ × ν) → κ → Option ν
  | [], _ => none
  | (k, v) :: rest, q => if k = q then some v else afind? rest q

/-- `std::map::insert`: inserts only when the key is not yet present. -/
def ainsert {κ ν : Type} [DecidableEq κ] (l : List (κ × ν)) (k : κ) (v : ν) :
    List (κ × ν) :=
  match afind? l k with
  | some _ => l
  | none => (k, v) :: l

/-- Modelled from the spec: the priority queue of `(index_key, f)` entries is
min-ordered by `f` (`std::priority_queue` with the comparator from the header,
which is not among the provided sources); tie-breaking is unspecified in the
spec, and this model pops the earliest-pushed entry among the minima.
Returns the popped entry together with the remaining queue. -/
def popMin {κ α : Type} [LinearOrder α] : List (κ × α) → Option ((κ × α) × List (κ × α))
  | [] => none
  | e :: rest =>
    match popMin rest with
    | none => some (e, [])
    | some m => if e.2 ≤ m.1.2 then some (e, rest) else some (m.1, e :: m.2)

/-- Zip three parallel sample arrays into a list of poses. -/
def zip3 {β : Type} : List β → List β → List β → List (β × β × β)
  | a :: as, b :: bs, c :: cs => (a, b, c) :: zip3 as bs cs
  | _, _, _ => []

/-- Configuration scalars of the planner (`PlannerOpenSpaceConfig` warm-start
section plus vehicle parameters), together with the external math oracles the
planner calls: `cosF`, `sinF`, `tanF`, `atanF` stand for `std::cos` etc.,
`normalizeAngle` for `common::math::NormalizeAngle`, `sqrt2` for the value of
`std::sqrt(2)`, and `piVal` for `M_PI` (used by the node-index computation). -/
structure Config (α : Type) where
  nextNodeNum : ℕ
  stepSize : α
  xyGridResolution : α
  phiGridResolution : α
  backPenalty : α
  gearSwitchPenalty : α
  steerPenalty : α
  steerChangePenalty : α
  deltaT : α
  maxSteer : α
  wheelBase : α
  xMin : α
  yMin : α
  piVal : α
  sqrt2 : α
  cosF : α → α
  sinF : α → α
  tanF : α → α
  atanF : α → α
  normalizeAngle : α → α

/-- A Reeds-Shepp path as consumed by the planner: parallel sample arrays and
per-segment signed lengths and types ('S', 'L', 'R'). -/
structure ReedSheppPath (α : Type) where
  x : List α
  y : List α
  phi : List α
  segsLengths : List α
  segsTypes : List Char
deriving DecidableEq

/-- The scalar payload of a `Node3d`: terminal pose, intermediate sample
arrays, direction, steering, and the two cost components. -/
structure NodeData (α : Type) where
  x : α
  y : α
  phi : α
  xs : List α
  ys : List α
  phis : List α
  direction : Bool
  steer : α
  trajCost : α
  heuCost : α
deriving DecidableEq

/-- A search node: payload plus the parent back-pointer chain
(`base` has a null predecessor, `link` points at its parent). -/
inductive Node3d (α : Type) : Type where
  | base (d : NodeData α) : Node3d α
  | link (d : NodeData α) (pre : Node3d α) : Node3d α
deriving DecidableEq

/-- Payload of a node. -/
def Node3d.data {α : Type} : Node3d α → NodeData α
  | .base d => d
  | .link d _ => d

/-- Parent pointer of a node (`GetPreNode`), `none` for the start node. -/
def Node3d.pre? {α : Type} : Node3d α → Option (Node3d α)
  | .base _ => none
  | .link _ p => some p

/-- Rebuild a node with an updated payload, keeping the parent link. -/
def Node3d.mapData {α : Type} (f : NodeData α → NodeData α) : Node3d α → Node3d α
  | .base d => .base (f d)
  | .link d p => .link (f d) p

/-- `SetTrajCost`. -/
def Node3d.setTrajCost {α : Type} (n : Node3d α) (c : α) : Node3d α :=
  n.mapData (fun d => { d with trajCost := c })

/-- `SetHeuCost`. -/
def Node3d.setHeuCost {α : Type} (n : Node3d α) (c : α) : Node3d α :=
  n.mapData (fun d => { d with heuCost := c })

/-- `GetCost`: the priority-queue key `f = traj_cost + heu_cost`. -/
def Node3d.cost {α : Type} [Add α] (n : Node3d α) : α :=
  n.data.trajCost + n.data.heuCost

/-- Modelled from the spec: the `Node3d` constructor (node3d.cc is not among
the provided sources).  A node is built from its terminal pose and sample
arrays; `direction` defaults to forward, `steer` and both costs to zero, per
the data model of the spec (§3). -/
def mkNodeData {α : Type} [Zero α] (x y phi : α) (xs ys phis : List α) : NodeData α :=
  { x := x, y := y, phi := phi, xs := xs, ys := ys, phis := phis,
    direction := true, steer := 0, trajCost := 0, heuCost := 0 }

/-- Modelled from the spec: the discrete index of a continuous pose
(`Node3d::GetIndex`, not among the provided sources): `ix = ⌊(x − x_min)/Δxy⌋`,
`iy = ⌊(y − y_min)/Δxy⌋`, `iphi = ⌊(phi + π)/Δphi⌋` (spec §3).  The scalar
hash of the triple is modelled by the triple itself, which is a deterministic
injective key. -/
def nodeIndex {α : Type} [LinearOrderedField α] [FloorRing α]
    (cfg : Config α) (x y phi : α) : GridKey :=
  (⌊(x - cfg.xMin) / cfg.xyGridResolution⌋,
   ⌊(y - cfg.yMin) / cfg.xyGridResolution⌋,
   ⌊(phi + cfg.piVal) / cfg.phiGridResolution⌋)

/-- `GetIndex` of a node. -/
def Node3d.index {α : Type} [LinearOrderedField α] [FloorRing α]
    (cfg : Config α) (n : Node3d α) : GridKey :=
  nodeIndex cfg n.data.x n.data.y n.data.phi

/-- `HybridAStar::ValidityCheck`: a pose is valid iff the obstacle list is
empty or no obstacle box overlaps the vehicle box at the pose.  The oriented
bounding-box overlap test (`Box2d::HasOverlap`, external to the translated
source) is the oracle `overlap`, a function of the node's pose and the
obstacle. -/
def validityCheck {α Obs : Type} (obstacles : List Obs)
    (overlap : α → α → α → Obs → Bool) (x y phi : α) : Bool :=
  if obstacles.isEmpty then true
  else obstacles.all (fun ob => ! overlap x y phi ob)

/-- `HybridAStar::RSPCheck`: every sample of the Reeds-Shepp path must pass
the validity check. -/
def rspCheck {α Obs : Type} (obstacles : List Obs)
    (overlap : α → α → α → Obs → Bool) (p : ReedSheppPath α) : Bool :=
  (zip3 p.x p.y p.phi).all (fun s => validityCheck obstacles overlap s.1 s.2.1 s.2.2)

/-- `HybridAStar::CalculateRSPCost`: three sequential accumulation loops over
the Reeds-Shepp segments: signed length term (positive lengths at unit cost,
non-positive lengths multiplied by `back_penalty`), gear-switch term for
adjacent sign changes, and the steering term over non-'S' segments (the
comparison char `last_turning` is set at the first non-'S' segment and never
updated afterwards, exactly as in the source). -/
def calculateRSPCost {α : Type} [LinearOrderedField α]
    (cfg : Config α) (p : ReedSheppPath α) : α :=
  let c1 : α := p.segsLengths.foldl
    (fun acc l => if 0 < l then acc + l else acc + l * cfg.backPenalty) 0
  let c2 : α := (p.segsLengths.zip p.segsLengths.tail).foldl
    (fun acc lp => if lp.1 * lp.2 < 0 then acc + cfg.gearSwitchPenalty else acc) c1
  let c3 : α × Bool × Char := p.segsTypes.foldl
    (fun st t =>
      if t ≠ 'S' then
        let c := st.1 + cfg.steerPenalty * cfg.maxSteer
        if ! st.2.1 then (c, true, t)
        else if t ≠ st.2.2 then
          (c + 2 * cfg.steerChangePenalty * cfg.maxSteer, st.2.1, st.2.2)
        else (c, st.2.1, st.2.2)
      else st)
    (c2, false, 'S')
  c3.1

/-- `HybridAStar::NonHoloNoObstacleHeuristic`. -/
def nonHoloNoObstacleHeuristic {α : Type} [LinearOrderedField α]
    (cfg : Config α) (p : ReedSheppPath α) : α :=
  calculateRSPCost cfg p

/-- `HybridAStar::CalculateNodeCost`: accumulates the piecewise cost exactly
as the source does and stores `current.traj_cost + piecewise` into the next
node's `traj_cost`, and the Reeds-Shepp heuristic into its `heu_cost`. -/
def calculateNodeCost {α : Type} [LinearOrderedField α]
    (cfg : Config α) (current next : Node3d α) (rs : ReedSheppPath α) : Node3d α :=
  let piecewiseCost : α := 0
  let piecewiseCost := piecewiseCost +
    (if next.data.direction then cfg.xyGridResolution
     else cfg.xyGridResolution * cfg.backPenalty)
  let piecewiseCost := piecewiseCost +
    (if current.data.direction ≠ next.data.direction then cfg.gearSwitchPenalty else 0)
  let piecewiseCost := piecewiseCost + cfg.steerPenalty * |next.data.steer|
  let piecewiseCost := piecewiseCost +
    cfg.steerChangePenalty * |next.data.steer - current.data.steer|
  let next1 := next.setTrajCost (current.data.trajCost + piecewiseCost)
  next1.setHeuCost (nonHoloNoObstacleHeuristic cfg rs)

/-- One bicycle-model substep chain: from the last pose, produce the `n`
subsequent sample poses (`x += d·cos φ`, `y += d·sin φ`,
`φ := normalize(φ + d/wheel_base·tan steer)`). -/
def bicycleIntegrate {α : Type} [LinearOrderedField α] (cfg : Config α)
    (steering d : α) : ℕ → α → α → α → List (α × α × α)
  | 0, _, _, _ => []
  | n + 1, lastX, lastY, lastPhi =>
    let nextX := lastX + d * cfg.cosF lastPhi
    let nextY := lastY + d * cfg.sinF lastPhi
    let nextPhi := cfg.normalizeAngle
      (lastPhi + d / cfg.wheelBase * cfg.tanF steering)
    (nextX, nextY, nextPhi) :: bicycleIntegrate cfg steering d n nextX nextY nextPhi

/-- Trip count of the substep loop `for (size_t i = 0; i < arc/step_size; i++)`
with `arc = sqrt(2)·Δxy`: the number of naturals `i` with `(i : α) < arc/step`,
which is `⌈arc/step⌉₊`. -/
def numSubsteps {α : Type} [LinearOrderedField α] [FloorRing α]
    (cfg : Config α) : ℕ :=
  ⌈cfg.sqrt2 * cfg.xyGridResolution / cfg.stepSize⌉₊

/-- `HybridAStar::Next_node_generator`: choose steering and signed travel
distance from the primitive index, integrate the bicycle model over the arc,
and build the successor node (parent link, direction = sign of the travel
distance, steering stored). -/
def nextNodeGenerator {α : Type} [LinearOrderedField α] [FloorRing α]
    (cfg : Config α) (current : Node3d α) (nextNodeIndex : ℕ) : Node3d α :=
  let halfK : ℕ := cfg.nextNodeNum / 2
  let steering : α :=
    if nextNodeIndex < halfK then
      -cfg.maxSteer + (2 * cfg.maxSteer / ((halfK - 1 : ℕ) : α)) * (nextNodeIndex : α)
    else
      -cfg.maxSteer + (2 * cfg.maxSteer / ((halfK - 1 : ℕ) : α)) *
        ((nextNodeIndex - halfK : ℕ) : α)
  let traveledDistance : α :=
    if nextNodeIndex < halfK then cfg.stepSize else -cfg.stepSize
  let x0 := current.data.x
  let y0 := current.data.y
  let phi0 := current.data.phi
  let steps := (x0, y0, phi0) ::
    bicycleIntegrate cfg steering traveledDistance (numSubsteps cfg) x0 y0 phi0
  let lastStep := steps.getLastD (x0, y0, phi0)
  let d0 := mkNodeData lastStep.1 lastStep.2.1 lastStep.2.2
    (steps.map (fun s => s.1)) (steps.map (fun s => s.2.1)) (steps.map (fun s => s.2.2))
  Node3d.link { d0 with direction := decide (0 < traveledDistance), steer := steering }
    current

/-- `HybridAStar::LoadRSPinCS` (node construction part): the terminal node
holds the whole Reeds-Shepp sample sequence, its parent is the expanded node,
and its `traj_cost` is set to the Reeds-Shepp path cost alone.  The insertion
of this node into the closed set happens at the call site in the search step,
as in the source. -/
def loadRSPinCS {α : Type} [LinearOrderedField α]
    (cfg : Config α) (p : ReedSheppPath α) (currentNode : Node3d α) : Node3d α :=
  let d0 := mkNodeData (p.x.getLastD 0) (p.y.getLastD 0) (p.phi.getLastD 0)
    p.x p.y p.phi
  let endNode := Node3d.link d0 currentNode
  endNode.setTrajCost (calculateRSPCost cfg p)

/-- The planner output record. -/
structure Result (α : Type) where
  x : List α
  y : List α
  phi : List α
  v : List α
  a : List α
  steer : List α
deriving DecidableEq

/-- The velocity samples of `GenerateSpeedAcceleration`: one entry per
position step, with a final `0` appended (`result->v`). -/
def speedSamples {α : Type} [LinearOrderedField α] (cfg : Config α) (r : Result α) :
    List α :=
  ((List.range (r.x.length - 1)).map (fun i =>
    ((r.x.getD (i + 1) 0 - r.x.getD i 0) / cfg.deltaT) * cfg.cosF (r.phi.getD i 0) +
    ((r.y.getD (i + 1) 0 - r.y.getD i 0) / cfg.deltaT) * cfg.sinF (r.phi.getD i 0)))
    ++ [0]

/-- The acceleration samples of `GenerateSpeedAcceleration` (`result->a`),
read from the already-built velocity list `v`. -/
def accelSamples {α : Type} [LinearOrderedField α] (cfg : Config α) (n : ℕ)
    (v : List α) : List α :=
  (List.range (n - 1)).map (fun i => (v.getD (i + 1) 0 - v.getD i 0) / cfg.deltaT)

/-- The steering samples of `GenerateSpeedAcceleration` (`result->steer`):
`atan` of the raw heading difference, with the sign flipped when the velocity
at the step is not positive. -/
def steerSamples {α : Type} [LinearOrderedField α] (cfg : Config α) (r : Result α)
    (v : List α) : List α :=
  (List.range (r.x.length - 1)).map (fun i =>
    let raw := (r.phi.getD (i + 1) 0 - r.phi.getD i 0) * cfg.wheelBase / cfg.stepSize
    if 0 < v.getD i 0 then cfg.atanF raw else cfg.atanF (-raw))

/-- `HybridAStar::GenerateSpeedAcceleration`: velocities from positions
(projected on the heading), terminal velocity zero, accelerations from
velocities, steering from heading differences with the sign flipped in
reverse gear.  Fails when any of the pose arrays has fewer than 2 entries. -/
def generateSpeedAcceleration {α : Type} [LinearOrderedField α]
    (cfg : Config α) (r : Result α) : Option (Result α) :=
  if r.x.length < 2 ∨ r.y.length < 2 ∨ r.phi.length < 2 then none
  else
    let v := speedSamples cfg r
    some { r with v := v, a := accelSamples cfg r.x.length v,
                  steer := steerSamples cfg r v }

/-- The parent-chain walk of `HybridAStar::GetResult`: for each node with a
non-null parent, reverse its sample arrays, drop the last element, and append
the block; finally append the start node's single pose.  Fails when an
interior node has an empty sample array. -/
def collectPath {α : Type} : Node3d α → Option (List α × List α × List α)
  | .base d => some ([d.x], [d.y], [d.phi])
  | .link d p =>
    if d.xs.length = 0 ∨ d.ys.length = 0 ∨ d.phis.length = 0 then none
    else
      match collectPath p with
      | none => none
      | some (rx, ry, rphi) =>
        some (d.xs.reverse.dropLast ++ rx,
              d.ys.reverse.dropLast ++ ry,
              d.phis.reverse.dropLast ++ rphi)

/-- `HybridAStar::GetResult`: reconstruct the pose arrays from the final node,
derive speed/acceleration/steering, and run the output size checks. -/
def getResult {α : Type} [LinearOrderedField α]
    (cfg : Config α) (finalNode : Node3d α) : Option (Result α) :=
  match collectPath finalNode with
  | none => none
  | some (xs, ys, phis) =>
    match generateSpeedAcceleration cfg
        { x := xs, y := ys, phi := phis, v := [], a := [], steer := [] } with
    | none => none
    | some r =>
      if r.x.length ≠ r.y.length ∨ r.x.length ≠ r.v.length ∨
          r.x.length ≠ r.phi.length then none
      else if r.a.length ≠ r.steer.length ∨ r.x.length - r.a.length ≠ 1 then none
      else some r

/-- The planner environment: configuration plus the external collaborators
(obstacle snapshot with its overlap oracle, and the Reeds-Shepp generator
`ShortestRSP`, modelled as a function of the two poses). -/
structure Env (α : Type) (Obs : Type) where
  cfg : Config α
  obstacles : List Obs
  overlap : α → α → α → Obs → Bool
  shortestRSP : α → α → α → α → α → α → Option (ReedSheppPath α)

/-- The mutable search state of one `Plan` invocation: open map, closed map,
Reeds-Shepp cache, and the priority queue. -/
structure SearchState (α : Type) where
  openSet : List (GridKey × Node3d α)
  closeSet : List (GridKey × Node3d α)
  cache : List (GridKey × ReedSheppPath α)
  pq : List (GridKey × α)
deriving DecidableEq

/-- Body of the successor loop for one primitive index `i`: generate the
successor, reject on validity or closed-set membership; when the key is new
to the open set, run the Reeds-Shepp heuristic (which caches the path before
anything else), compute the node costs, and insert into open set and queue;
when the key is already open, do nothing (rewiring is a TODO in the source). -/
def expandPrim {α Obs : Type} [LinearOrderedField α] [FloorRing α]
    (env : Env α Obs) (ex ey ephi : α) (current : Node3d α)
    (s : SearchState α) (i : ℕ) : SearchState α :=
  let next := nextNodeGenerator env.cfg current i
  if ! validityCheck env.obstacles env.overlap next.data.x next.data.y next.data.phi
  then s
  else
    let key := Node3d.index env.cfg next
    if (afind? s.closeSet key).isSome then s
    else if (afind? s.openSet key).isNone then
      match env.shortestRSP next.data.x next.data.y next.data.phi ex ey ephi with
      | none => s
      | some rsp =>
        let s1 := { s with cache := ainsert s.cache key rsp }
        let next1 := calculateNodeCost env.cfg current next rsp
        { s1 with openSet := ainsert s1.openSet key next1,
                  pq := (key, next1.cost) :: s1.pq }
    else s

/-- Outcome of one iteration of the `while (!open_pq_.empty())` loop. -/
inductive StepOut (α : Type) : Type where
  | stepped (s : SearchState α) : StepOut α
  | finished (s : SearchState α) (finalNode : Node3d α) : StepOut α
  | emptyQueue : StepOut α
  | crash : StepOut α
deriving DecidableEq

/-- One iteration of the search loop: pop the lowest-f entry, fetch the node
from the open map and its cached Reeds-Shepp path (`AnalyticExpansion` reads
`ReedSheppPath_cache_[GetIndex()]` unchecked: a missing entry is the null
dereference, modelled as `crash`; likewise a popped key missing from the open
map).  On a collision-free Reeds-Shepp path the search finishes with the
`LoadRSPinCS` terminal node added to the closed set; otherwise the current
node is added to the closed set (never removed from the open map) and all
`next_node_num` successors are processed. -/
def stepLoop {α Obs : Type} [LinearOrderedField α] [FloorRing α]
    (env : Env α Obs) (ex ey ephi : α) (s : SearchState α) : StepOut α :=
  match popMin s.pq with
  | none => .emptyQueue
  | some ((currentId, _), pqRest) =>
    let s0 := { s with pq := pqRest }
    match afind? s0.openSet currentId with
    | none => .crash
    | some currentNode =>
      match afind? s0.cache (Node3d.index env.cfg currentNode) with
      | none => .crash
      | some reedsSheppToCheck =>
        if rspCheck env.obstacles env.overlap reedsSheppToCheck then
          let endNode := loadRSPinCS env.cfg reedsSheppToCheck currentNode
          .finished
            { s0 with closeSet := ainsert s0.closeSet (Node3d.index env.cfg endNode) endNode }
            endNode
        else
          let s1 := { s0 with
            closeSet := ainsert s0.closeSet (Node3d.index env.cfg currentNode) currentNode }
          .stepped ((List.range env.cfg.nextNodeNum).foldl
            (expandPrim env ex ey ephi currentNode) s1)

/-- Fuel-indexed run of the search loop.  `none` models a run that did not
finish within the fuel (the source loop is unbounded) or that crashed;
`some (s, none)` is queue exhaustion with a null final node, and
`some (s, some n)` a successful analytic termination. -/
def runLoop {α Obs : Type} [LinearOrderedField α] [FloorRing α]
    (env : Env α Obs) (ex ey ephi : α) :
    ℕ → SearchState α → Option (SearchState α × Option (Node3d α))
  | 0, _ => none
  | fuel + 1, s =>
    match stepLoop env ex ey ephi s with
    | .emptyQueue => some (s, none)
    | .crash => none
    | .finished s1 finalNode => some (s1, some finalNode)
    | .stepped s1 => runLoop env ex ey ephi fuel s1

/-- Initialization of `Plan` before the search loop: build start and end
nodes, fail fast when either pose fails the validity check, seed the open map
and queue with the start node, compute and cache the start-to-goal
Reeds-Shepp path (failure of the generator is fatal). -/
def initSearch {α Obs : Type} [LinearOrderedField α] [FloorRing α]
    (env : Env α Obs) (sx sy sphi ex ey ephi : α) : Option (SearchState α) :=
  if validityCheck env.obstacles env.overlap sx sy sphi then
    if validityCheck env.obstacles env.overlap ex ey ephi then
      let startNode : Node3d α := Node3d.base (mkNodeData sx sy sphi [sx] [sy] [sphi])
      let k0 := Node3d.index env.cfg startNode
      let s0 : SearchState α :=
        { openSet := ainsert [] k0 startNode, closeSet := [], cache := [],
          pq := [(k0, startNode.cost)] }
      match env.shortestRSP sx sy sphi ex ey ephi with
      | none => none
      | some p0 => some { s0 with cache := ainsert s0.cache k0 p0 }
    else none
  else none

/-- `HybridAStar::Plan` up to the final node: initialization, search loop,
and the null check on `final_node_`. -/
def planFinalNode {α Obs : Type} [LinearOrderedField α] [FloorRing α]
    (env : Env α Obs) (fuel : ℕ) (sx sy sphi ex ey ephi : α) : Option (Node3d α) :=
  match initSearch env sx sy sphi ex ey ephi with
  | none => none
  | some s0 =>
    match runLoop env ex ey ephi fuel s0 with
    | some (_, some finalNode) => some finalNode
    | _ => none

/-- `HybridAStar::Plan`: the full planner, returning the populated `Result`
on success and `none` on any failure path. -/
def plan {α Obs : Type} [LinearOrderedField α] [FloorRing α]
    (env : Env α Obs) (fuel : ℕ) (sx sy sphi ex ey ephi : α) : Option (Result α) :=
  match planFinalNode env fuel sx sy sphi ex ey ephi with
  | none => none
  | some finalNode => getResult env.cfg finalNode

/-- States of one invocation reachable from a given state by whole loop
iterations that continue the search. -/
inductive Reachable {α Obs : Type} [LinearOrderedField α] [FloorRing α]
    (env : Env α Obs) (ex ey ephi : α) : SearchState α → SearchState α → Prop where
  | refl (s : SearchState α) : Reachable env ex ey ephi s s
  | tail {s t u : SearchState α} : Reachable env ex ey ephi s t →
      stepLoop env ex ey ephi t = .stepped u → Reachable env ex ey ephi s u

/-- The search-state well-formedness invariant maintained by the loop:
every node in the open map is stored under its own index key, and every
queue entry's key has both an open-map node and a cached Reeds-Shepp path.
The second conjunct is exactly what makes the unchecked cache lookup of
`AnalyticExpansion` (and the unchecked `open_set_[current_id]`) safe. -/
def GoodState {α : Type} [LinearOrderedField α] [FloorRing α]
    (cfg : Config α) (s : SearchState α) : Prop :=
  (∀ k n, afind? s.openSet k = some n → Node3d.index cfg n = k) ∧
  (∀ e : GridKey × α, e ∈ s.pq →
    (afind? s.openSet e.1).isSome ∧ (afind? s.cache e.1).isSome)

/-
Concrete instantiations at `α = ℚ`, used by counterexamples and witnesses.
The oracle fields hold simple exact stand-ins for the external library
functions (the structural claims proved below hold for every oracle).
-/

/-- A baseline rational configuration: `K = 4`, unit grid and step, penalties
`back = 2`, `gear_switch = 3`, `steer = steer_change = 1`, `max_steer = 1/2`. -/
def cfgQ : Config ℚ :=
  { nextNodeNum := 4, stepSize := 1, xyGridResolution := 1,
    phiGridResolution := 1, backPenalty := 2, gearSwitchPenalty := 3,
    steerPenalty := 1, steerChangePenalty := 1, deltaT := 1, maxSteer := 1/2,
    wheelBase := 1, xMin := 0, yMin := 0, piVal := 3, sqrt2 := 3/2,
    cosF := fun _ => 1, sinF := fun _ => 0, tanF := fun _ => 0,
    atanF := fun q => q, normalizeAngle := fun q => q }

/-- Reeds-Shepp path from (0,0,0) to (1,0,0): two samples, one forward
segment of length 1. -/
def pathFwd : ReedSheppPath ℚ :=
  { x := [0, 1], y := [0, 0], phi := [0, 0], segsLengths := [1], segsTypes := ['S'] }

/-- Reeds-Shepp path sampled like `pathFwd` but declared as a single reverse
segment of length −1. -/
def pathRev : ReedSheppPath ℚ :=
  { x := [0, 1], y := [0, 0], phi := [0, 0], segsLengths := [-1], segsTypes := ['S'] }

/-- Degenerate zero-motion Reeds-Shepp path with a single sample. -/
def pathOneSample : ReedSheppPath ℚ :=
  { x := [0], y := [0], phi := [0], segsLengths := [0], segsTypes := ['S'] }

/-- Degenerate zero-motion Reeds-Shepp path with two (coincident) samples. -/
def pathTwoSamples : ReedSheppPath ℚ :=
  { x := [0, 0], y := [0, 0], phi := [0, 0], segsLengths := [0], segsTypes := ['S'] }

/-- Obstacle-free environment whose Reeds-Shepp generator always returns
`pathFwd`. -/
def envFwd : Env ℚ Unit :=
  { cfg := cfgQ, obstacles := [], overlap := fun _ _ _ _ => false,
    shortestRSP := fun _ _ _ _ _ _ => some pathFwd }

/-- Obstacle-free environment whose Reeds-Shepp generator always returns
`pathRev`. -/
def envRev : Env ℚ Unit :=
  { cfg := cfgQ, obstacles := [], overlap := fun _ _ _ _ => false,
    shortestRSP := fun _ _ _ _ _ _ => some pathRev }

/-- Obstacle-free environment whose Reeds-Shepp generator returns the
one-sample zero-motion path. -/
def envOneSample : Env ℚ Unit :=
  { cfg := cfgQ, obstacles := [], overlap := fun _ _ _ _ => false,
    shortestRSP := fun _ _ _ _ _ _ => some pathOneSample }

/-- Obstacle-free environment whose Reeds-Shepp generator returns the
two-sample zero-motion path. -/
def envTwoSamples : Env ℚ Unit :=
  { cfg := cfgQ, obstacles := [], overlap := fun _ _ _ _ => false,
    shortestRSP := fun _ _ _ _ _ _ => some pathTwoSamples }

/-- Reeds-Shepp path from (0,0,0) to (10,0,0) whose middle sample sits at
`x = 5`, where the single obstacle of `envBlockedRSP` is. -/
def pathBlocked : ReedSheppPath ℚ :=
  { x := [0, 5, 10], y := [0, 0, 0], phi := [0, 0, 0],
    segsLengths := [10], segsTypes := ['S'] }

/-- Environment with one obstacle that overlaps the vehicle exactly at poses
with `x = 5`: start and goal are collision-free but the analytic Reeds-Shepp
curve is not, so the first popped node fails analytic expansion and is moved
to the closed set. -/
def envBlockedRSP : Env ℚ Unit :=
  { cfg := cfgQ, obstacles := [()],
    overlap := fun x _ _ _ => decide (x = 5),
    shortestRSP := fun _ _ _ _ _ _ => some pathBlocked }

/-- Environment whose single obstacle overlaps the vehicle everywhere, so
the start pose fails the validity check. -/
def envStartBlocked : Env ℚ Unit :=
  { cfg := cfgQ, obstacles := [()], overlap := fun _ _ _ _ => true,
    shortestRSP := fun _ _ _ _ _ _ => none }

/-- The start node of a `Plan` invocation starting at pose (0,0,0). -/
def startNodeQ : Node3d ℚ := Node3d.base (mkNodeData 0 0 0 [0] [0] [0])

/-- Index key of the (0,0,0) start node under `cfgQ`. -/
def startKeyQ : GridKey := (0, 0, 3)

/-- The search state right after initialization for start = goal = (0,0,0)
in `envTwoSamples` (spelled out literally; equality with `initSearch` is
established in the C10 witness). -/
def initStateQ : SearchState ℚ :=
  { openSet := [(startKeyQ, startNodeQ)], closeSet := [],
    cache := [(startKeyQ, pathTwoSamples)], pq := [(startKeyQ, 0)] }

/-- `envBlockedRSP` with `next_node_num = 0` (no successor primitives), so a
loop iteration that fails analytic expansion changes only the queue and the
closed map; used to instantiate the amended C3 invariant on a small step. -/
def envBlockedK0 : Env ℚ Unit :=
  { envBlockedRSP with cfg := { cfgQ with nextNodeNum := 0 } }

/-- State of the `envBlockedK0` run right after initialization. -/
def c3wState0 : SearchState ℚ :=
  { openSet := [(startKeyQ, startNodeQ)], closeSet := [],
    cache := [(startKeyQ, pathBlocked)], pq := [(startKeyQ, 0)] }

/-- State of the `envBlockedK0` run after the first loop iteration: the start
node has been popped and added to the closed map while remaining in the open
map. -/
def c3wState1 : SearchState ℚ :=
  { openSet := [(startKeyQ, startNodeQ)], closeSet := [(startKeyQ, startNodeQ)],
    cache := [(startKeyQ, pathBlocked)], pq := [] }

/-- Configuration whose `sqrt2` oracle is the exact value of the IEEE-754
double `std::sqrt(2)` = 6369051672525773 / 2^52. -/
def cfgSqrt : Config ℚ :=
  { cfgQ with sqrt2 := 6369051672525773 / 4503599627370496 }

/-- Observation used by the C3 counterexample: after one loop iteration of
the `envBlockedRSP` scenario, the start key is present in both the open map
and the closed map. -/
def c3Violation : Bool :=
  match initSearch envBlockedRSP 0 0 0 10 0 0 with
  | none => false
  | some s0 =>
    match stepLoop envBlockedRSP 10 0 0 s0 with
    | .stepped s1 =>
      (afind? s1.openSet startKeyQ).isSome && (afind? s1.closeSet startKeyQ).isSome
    | _ => false

/-- Observation used by the C4 counterexample: the final node of the
`envRev` plan run, as the pair (its `traj_cost`, its parent's `traj_cost`). -/
def c4Data : Option (ℚ × Option ℚ) :=
  (planFinalNode envRev 1 0 0 0 1 0 0).map
    (fun n => (n.data.trajCost, n.pre?.map (fun p => p.data.trajCost)))

/-
Helper lemmas shared across the claim theorems.
-/

theorem afind?_ainsert_self {κ ν : Type} [DecidableEq κ] (l : List (κ × ν)) (k : κ) (v : ν) :
    (afind? (ainsert l k v) k).isSome := by
  unfold ainsert
  cases h : afind? l k with
  | some w => simp [h]
  | none => simp [afind?]

theorem afind?_ainsert_isSome {κ ν : Type} [DecidableEq κ] (l : List (κ × ν)) (k q : κ) (v : ν) :
    (afind? (ainsert l k v) q).isSome ↔ q = k ∨ (afind? l q).isSome := by
  unfold ainsert
  cases h : afind? l k with
  | some w =>
    simp only []
    constructor
    · intro hq; exact Or.inr hq
    · rintro (rfl | hq)
      · simp [h]
      · exact hq
  | none =>
    simp only [afind?]
    by_cases hk : k = q
    · subst hk; simp
    · rw [if_neg hk]
      constructor
      · intro hq; exact Or.inr hq
      · rintro (rfl | hq)
        · exact absurd rfl hk
        · exact hq

theorem afind?_ainsert_mono {κ ν : Type} [DecidableEq κ] {l : List (κ × ν)} {q : κ}
    (k : κ) (v : ν) (h : (afind? l q).isSome) : (afind? (ainsert l k v) q).isSome :=
  (afind?_ainsert_isSome l k q v).2 (Or.inr h)

theorem popMin_mem {κ α : Type} [LinearOrder α] :
    ∀ {l : List (κ × α)} {e : κ × α} {rest : List (κ × α)},
      popMin l = some (e, rest) → e ∈ l := by
  intro l
  induction l with
  | nil => intro e rest h; simp [popMin] at h
  | cons hd tl ih =>
    intro e rest h
    unfold popMin at h
    cases htl : popMin tl with
    | none => rw [htl] at h; simp at h; exact h.1 ▸ List.mem_cons_self hd tl
    | some mr =>
      rw [htl] at h
      simp only [] at h
      by_cases hle : hd.2 ≤ mr.1.2
      · rw [if_pos hle] at h
        simp at h
        exact h.1 ▸ List.mem_cons_self hd tl
      · rw [if_neg hle] at h
        simp at h
        have hmr : popMin tl = some (mr.1, mr.2) := by rw [htl]
        exact List.mem_cons_of_mem hd (h.1 ▸ ih hmr)

theorem popMin_rest_mem {κ α : Type} [LinearOrder α] :
    ∀ {l : List (κ × α)} {e x : κ × α} {rest : List (κ × α)},
      popMin l = some (e, rest) → x ∈ rest → x ∈ l := by
  intro l
  induction l with
  | nil => intro e x rest h; simp [popMin] at h
  | cons hd tl ih =>
    intro e x rest h hx
    unfold popMin at h
    cases htl : popMin tl with
    | none =>
      rw [htl] at h; simp at h
      rw [h.2] at hx; simp at hx
    | some mr =>
      rw [htl] at h
      simp only [] at h
      by_cases hle : hd.2 ≤ mr.1.2
      · rw [if_pos hle] at h
        simp at h
        rw [← h.2] at hx
        exact List.mem_cons_of_mem hd hx
      · rw [if_neg hle] at h
        simp at h
        rw [← h.2] at hx
        rcases List.mem_cons.1 hx with rfl | hx2
        · exact List.mem_cons_self x tl
        · have hmr : popMin tl = some (mr.1, mr.2) := by rw [htl]
          exact List.mem_cons_of_mem hd (ih hmr hx2)

theorem Node3d.data_mapData {α : Type} (f : NodeData α → NodeData α) (n : Node3d α) :
    (n.mapData f).data = f n.data := by
  cases n <;> rfl

theorem Node3d.pre?_mapData {α : Type} (f : NodeData α → NodeData α) (n : Node3d α) :
    (n.mapData f).pre? = n.pre? := by
  cases n <;> rfl

theorem bicycleIntegrate_length {α : Type} [LinearOrderedField α] (cfg : Config α)
    (steering d : α) : ∀ (n : ℕ) (x y phi : α),
      (bicycleIntegrate cfg steering d n x y phi).length = n := by
  intro n
  induction n with
  | zero => intro x y phi; rfl
  | succ m ih => intro x y phi; simp [bicycleIntegrate, ih]

theorem calculateNodeCost_pose {α : Type} [LinearOrderedField α] (cfg : Config α)
    (current next : Node3d α) (rs : ReedSheppPath α) :
    (calculateNodeCost cfg current next rs).data.x = next.data.x ∧
    (calculateNodeCost cfg current next rs).data.y = next.data.y ∧
    (calculateNodeCost cfg current next rs).data.phi = next.data.phi := by
  unfold calculateNodeCost Node3d.setTrajCost Node3d.setHeuCost
  simp [Node3d.data_mapData]

theorem calculateNodeCost_index {α : Type} [LinearOrderedField α] [FloorRing α]
    (cfg : Config α) (current next : Node3d α) (rs : ReedSheppPath α) :
    Node3d.index cfg (calculateNodeCost cfg current next rs) = Node3d.index cfg next := by
  obtain ⟨h1, h2, h3⟩ := calculateNodeCost_pose cfg current next rs
  unfold Node3d.index nodeIndex
  rw [h1, h2, h3]

theorem calculateNodeCost_trajCost {α : Type} [LinearOrderedField α] (cfg : Config α)
    (current next : Node3d α) (rs : ReedSheppPath α) :
    (calculateNodeCost cfg current next rs).data.trajCost =
      current.data.trajCost +
        ((if next.data.direction then cfg.xyGridResolution
          else cfg.xyGridResolution * cfg.backPenalty) +
         (if current.data.direction ≠ next.data.direction then cfg.gearSwitchPenalty
          else 0) +
         cfg.steerPenalty * |next.data.steer| +
         cfg.steerChangePenalty * |next.data.steer - current.data.steer|) := by
  unfold calculateNodeCost Node3d.setTrajCost Node3d.setHeuCost
  simp [Node3d.data_mapData]

theorem getD_append_lt {α : Type} :
    ∀ {l1 l2 : List α} {i : ℕ}, i < l1.length → ∀ d, (l1 ++ l2).getD i d = l1.getD i d := by
  intro l1
  induction l1 with
  | nil => intro l2 i h; simp at h
  | cons hd tl ih =>
    intro l2 i h d
    cases i with
    | zero => rfl
    | succ j =>
      simp only [List.cons_append, List.getD_cons_succ]
      exact ih (Nat.lt_of_succ_lt_succ h) d

theorem getD_append_len {α : Type} :
    ∀ (l1 : List α) (c d : α), (l1 ++ [c]).getD l1.length d = c := by
  intro l1
  induction l1 with
  | nil => intro c d; rfl
  | cons hd tl ih =>
    intro c d
    simp only [List.cons_append, List.length_cons, List.getD_cons_succ]
    exact ih c d

theorem getD_map_range {α : Type} (f : ℕ → α) :
    ∀ {n : ℕ} {i : ℕ}, i < n → ∀ d, ((List.range n).map f).getD i d = f i := by
  have key : ∀ (l : List ℕ) (g : ℕ → α) (i : ℕ) (hi : i < l.length) (d : α),
      (l.map g).getD i d = g (l.getD i 0) := by
    intro l
    induction l with
    | nil => intro g i hi; simp at hi
    | cons hd tl ih =>
      intro g i hi d
      cases i with
      | zero => rfl
      | succ j =>
        simp only [List.map_cons, List.getD_cons_succ]
        exact ih g j (Nat.lt_of_succ_lt_succ hi) d
  intro n i h d
  rw [key (List.range n) f i (by simpa using h) d]
  congr 1
  rw [List.getD_eq_getElem?_getD, List.getElem?_range h]
  rfl

theorem length_speedSamples {α : Type} [LinearOrderedField α] (cfg : Config α)
    (r : Result α) : (speedSamples cfg r).length = r.x.length - 1 + 1 := by
  simp [speedSamples]

theorem speedSamples_getD_lt {α : Type} [LinearOrderedField α] (cfg : Config α)
    (r : Result α) {i : ℕ} (h : i < r.x.length - 1) :
    (speedSamples cfg r).getD i 0 =
      ((r.x.getD (i + 1) 0 - r.x.getD i 0) / cfg.deltaT) * cfg.cosF (r.phi.getD i 0) +
      ((r.y.getD (i + 1) 0 - r.y.getD i 0) / cfg.deltaT) * cfg.sinF (r.phi.getD i 0) := by
  unfold speedSamples
  rw [getD_append_lt (by simpa using h), getD_map_range _ h]

theorem speedSamples_getD_last {α : Type} [LinearOrderedField α] (cfg : Config α)
    (r : Result α) : (speedSamples cfg r).getD (r.x.length - 1) 0 = 0 := by
  unfold speedSamples
  have hlen : r.x.length - 1 = ((List.range (r.x.length - 1)).map (fun i =>
      ((r.x.getD (i + 1) 0 - r.x.getD i 0) / cfg.deltaT) * cfg.cosF (r.phi.getD i 0) +
      ((r.y.getD (i + 1) 0 - r.y.getD i 0) / cfg.deltaT) * cfg.sinF (r.phi.getD i 0))).length := by
    simp
  nth_rewrite 2 [hlen]
  rw [getD_append_len]

theorem length_accelSamples {α : Type} [LinearOrderedField α] (cfg : Config α)
    (n : ℕ) (v : List α) : (accelSamples cfg n v).length = n - 1 := by
  simp [accelSamples]

theorem accelSamples_getD {α : Type} [LinearOrderedField α] (cfg : Config α)
    (n : ℕ) (v : List α) {i : ℕ} (h : i < n - 1) :
    (accelSamples cfg n v).getD i 0 = (v.getD (i + 1) 0 - v.getD i 0) / cfg.deltaT := by
  unfold accelSamples
  rw [getD_map_range _ h]

theorem length_steerSamples {α : Type} [LinearOrderedField α] (cfg : Config α)
    (r : Result α) (v : List α) : (steerSamples cfg r v).length = r.x.length - 1 := by
  simp [steerSamples]

theorem steerSamples_getD {α : Type} [LinearOrderedField α] (cfg : Config α)
    (r : Result α) (v : List α) {i : ℕ} (h : i < r.x.length - 1) :
    (steerSamples cfg r v).getD i 0 =
      (if 0 < v.getD i 0 then
        cfg.atanF ((r.phi.getD (i + 1) 0 - r.phi.getD i 0) * cfg.wheelBase / cfg.stepSize)
      else
        cfg.atanF (-((r.phi.getD (i + 1) 0 - r.phi.getD i 0) * cfg.wheelBase / cfg.stepSize))) := by
  unfold steerSamples
  rw [getD_map_range _ h]

theorem generateSpeedAcceleration_eq {α : Type} [LinearOrderedField α]
    (cfg : Config α) (r : Result α) (hx : 2 ≤ r.x.length) (hy : 2 ≤ r.y.length)
    (hp : 2 ≤ r.phi.length) :
    generateSpeedAcceleration cfg r = some
      { r with v := speedSamples cfg r,
               a := accelSamples cfg r.x.length (speedSamples cfg r),
               steer := steerSamples cfg r (speedSamples cfg r) } := by
  unfold generateSpeedAcceleration
  rw [if_neg (by omega)]

/-
Claim theorems.
-/

/-- C1 (code_bug evaluation): on a successful `Plan` call from start
(0,0,0) to goal (1,0,0) whose analytic Reeds-Shepp curve is sampled as
[0, 1], the returned pose arrays come out in goal-to-start order:
`x = [1, 0]`, so `x[0] = ex = 1` and `x[N−1] = sx = 0`, contradicting the
claimed `x[0] = sx`, `x[N−1] = ex` (GetResult appends the reversed blocks
walking from the final node and never reverses the accumulated output). -/
theorem c1_code_bug_eval :
    (plan envFwd 1 0 0 0 1 0 0).map (fun r => (r.x, r.y, r.phi)) =
      some ([1, 0], [0, 0], [0, 0]) := by
  with_unfolding_all rfl

/-- C2 (code_bug evaluation): for the single reverse segment `L = [−1]` of
type 'S' with `back_penalty = 2`, `CalculateRSPCost` returns
`L·back_penalty = −2` (the length term of the code), while the claimed
length term `(−L)·back_penalty` is `+2`; a reverse segment thus decreases
the cost instead of penalizing it. -/
theorem c2_code_bug_eval :
    calculateRSPCost cfgQ pathRev = -2 ∧ (-(-1) * cfgQ.backPenalty : ℚ) = 2 := by
  constructor
  · with_unfolding_all rfl
  · with_unfolding_all rfl

/-- C5 (counterexample): with `step_size = 1`, `Δxy = 1` and the double value
of `sqrt(2)` as the `sqrt2` oracle, the motion-primitive generator produces
sample arrays of length 3 (two substeps, since the loop `i < arc/step` runs
`⌈arc/step⌉` times), while the claimed `⌊arc/step_size⌋ + 1` is 2. -/
theorem c5_counterexample_floor :
    (nextNodeGenerator cfgSqrt startNodeQ 0).data.xs.length = 3 ∧
    ⌊cfgSqrt.sqrt2 * cfgSqrt.xyGridResolution / cfgSqrt.stepSize⌋₊ + 1 = 2 := by
  constructor
  · with_unfolding_all rfl
  · with_unfolding_all rfl

/-- C5 (amended): the bicycle-model integration performs exactly
`⌈arc/step_size⌉` substeps — the trip count of the loop
`for (i = 0; i < arc/step_size; i++)`, characterized below by
`n < substeps ↔ (n : α) < arc/step_size` — and the sample arrays
`xs/ys/phis` have length `⌈arc/step_size⌉ + 1` (the parent pose included). -/
theorem c5_amended_substeps {α : Type} [LinearOrderedField α] [FloorRing α]
    (cfg : Config α) (current : Node3d α) (i : ℕ) :
    (nextNodeGenerator cfg current i).data.xs.length = numSubsteps cfg + 1 ∧
    (nextNodeGenerator cfg current i).data.ys.length = numSubsteps cfg + 1 ∧
    (nextNodeGenerator cfg current i).data.phis.length = numSubsteps cfg + 1 ∧
    (∀ n : ℕ, n < numSubsteps cfg ↔ (n : α) < cfg.sqrt2 * cfg.xyGridResolution / cfg.stepSize) := by
  refine ⟨?_, ?_, ?_, fun n => Nat.lt_ceil⟩ <;>
    simp [nextNodeGenerator, Node3d.data, mkNodeData, bicycleIntegrate_length]

/-- C6 (confirmed): `CalculateNodeCost` sets the successor's `traj_cost` to
the parent's `traj_cost` plus the piecewise cost: the grid-resolution base
(multiplied by `back_penalty` in reverse), the gear-switch penalty when the
directions differ, and the two steering terms. -/
theorem c6_piecewise_cost {α : Type} [LinearOrderedField α] (cfg : Config α)
    (current next : Node3d α) (rs : ReedSheppPath α) :
    (calculateNodeCost cfg current next rs).data.trajCost =
      current.data.trajCost +
        ((if next.data.direction then cfg.xyGridResolution
          else cfg.xyGridResolution * cfg.backPenalty) +
         (if current.data.direction ≠ next.data.direction then cfg.gearSwitchPenalty
          else 0) +
         cfg.steerPenalty * |next.data.steer| +
         cfg.steerChangePenalty * |next.data.steer - current.data.steer|) :=
  calculateNodeCost_trajCost cfg current next rs

/-- C7 (confirmed): for pose arrays of length `N ≥ 2`,
`GenerateSpeedAcceleration` succeeds and produces
`v[i] = ((x[i+1]−x[i])/Δt)·cos(φ[i]) + ((y[i+1]−y[i])/Δt)·sin(φ[i])` for
`i < N−1`, `v[N−1] = 0`, `a[i] = (v[i+1]−v[i])/Δt`, and
`steer[i] = atan(raw)` when `v[i] > 0` and `atan(−raw)` otherwise, with
`raw = (φ[i+1]−φ[i])·wheel_base/step_size`. -/
theorem c7_speed_acceleration {α : Type} [LinearOrderedField α] (cfg : Config α)
    (r : Result α) (hx : 2 ≤ r.x.length) (hy : 2 ≤ r.y.length)
    (hp : 2 ≤ r.phi.length) :
    ∃ r1 : Result α, generateSpeedAcceleration cfg r = some r1 ∧
      r1.v.length = r.x.length - 1 + 1 ∧
      r1.a.length = r.x.length - 1 ∧
      r1.steer.length = r.x.length - 1 ∧
      (∀ i, i < r.x.length - 1 →
        r1.v.getD i 0 =
          ((r.x.getD (i + 1) 0 - r.x.getD i 0) / cfg.deltaT) * cfg.cosF (r.phi.getD i 0) +
          ((r.y.getD (i + 1) 0 - r.y.getD i 0) / cfg.deltaT) * cfg.sinF (r.phi.getD i 0)) ∧
      r1.v.getD (r.x.length - 1) 0 = 0 ∧
      (∀ i, i < r.x.length - 1 →
        r1.a.getD i 0 = (r1.v.getD (i + 1) 0 - r1.v.getD i 0) / cfg.deltaT) ∧
      (∀ i, i < r.x.length - 1 →
        r1.steer.getD i 0 =
          (if 0 < r1.v.getD i 0 then
            cfg.atanF ((r.phi.getD (i + 1) 0 - r.phi.getD i 0) * cfg.wheelBase / cfg.stepSize)
          else
            cfg.atanF (-((r.phi.getD (i + 1) 0 - r.phi.getD i 0) * cfg.wheelBase / cfg.stepSize)))) := by
  refine ⟨_, generateSpeedAcceleration_eq cfg r hx hy hp, ?_, ?_, ?_, ?_, ?_, ?_, ?_⟩
  · exact length_speedSamples cfg r
  · exact length_accelSamples cfg r.x.length (speedSamples cfg r)
  · exact length_steerSamples cfg r (speedSamples cfg r)
  · intro i h; exact speedSamples_getD_lt cfg r h
  · exact speedSamples_getD_last cfg r
  · intro i h; exact accelSamples_getD cfg r.x.length (speedSamples cfg r) h
  · intro i h; exact steerSamples_getD cfg r (speedSamples cfg r) h

/-- C7 witness: the theorem applied to the concrete two-sample result
`x = [0,1], y = [0,0], phi = [0,0]` under `cfgQ`. -/
theorem c7_witness_concrete :
    ∃ r1 : Result ℚ,
      generateSpeedAcceleration cfgQ
        { x := [0, 1], y := [0, 0], phi := [0, 0], v := [], a := [], steer := [] } = some r1 ∧
      r1.v.length = 2 ∧ r1.a.length = 1 ∧ r1.steer.length = 1 ∧
      r1.v.getD 0 0 = ((1 - 0) / 1) * 1 + ((0 - 0) / 1) * 0 ∧
      r1.v.getD 1 0 = 0 ∧
      r1.a.getD 0 0 = (r1.v.getD 1 0 - r1.v.getD 0 0) / 1 ∧
      r1.steer.getD 0 0 =
        (if (0 : ℚ) < r1.v.getD 0 0 then ((0 - 0) * 1 / 1 : ℚ) else -((0 - 0) * 1 / 1 : ℚ)) := by
  obtain ⟨r1, h1, h2, h3, h4, h5, h6, h7, h8⟩ :=
    c7_speed_acceleration cfgQ
      { x := [0, 1], y := [0, 0], phi := [0, 0], v := [], a := [], steer := [] }
      (by with_unfolding_all rfl ; ) (by norm_num) (by norm_num)
  refine ⟨r1, h1, h2, h3, h4, ?_, h6, ?_, ?_⟩
  · have := h5 0 (by norm_num)
    simpa [cfgQ] using this
  · have := h7 0 (by norm_num)
    simpa [cfgQ] using this
  · have := h8 0 (by norm_num)
    simpa [cfgQ] using this

/-- C4 (counterexample): in the `envRev` plan run the analytic-expansion
terminal node has `traj_cost = −2` (the Reeds-Shepp cost alone — `LoadRSPinCS`
does not add the parent's accumulated cost) while its parent, the start node,
has `traj_cost = 0`; along this parent chain `traj_cost` decreases. -/
theorem c4_counterexample_rs_terminal :
    c4Data = some (-2, some 0) ∧ (-2 : ℚ) < 0 := by
  constructor
  · with_unfolding_all rfl
  · norm_num

/-- C4 (amended): along parent links created by the motion-primitive
expansion (`CalculateNodeCost`), `traj_cost` is non-decreasing whenever the
configured penalties are non-negative; the terminal node created by the
analytic expansion is excluded, since its `traj_cost` is the Reeds-Shepp
path cost alone and can be smaller than its parent's. -/
theorem c4_amended_monotone {α : Type} [LinearOrderedField α] (cfg : Config α)
    (current next : Node3d α) (rs : ReedSheppPath α)
    (h1 : 0 ≤ cfg.xyGridResolution) (h2 : 0 ≤ cfg.backPenalty)
    (h3 : 0 ≤ cfg.gearSwitchPenalty) (h4 : 0 ≤ cfg.steerPenalty)
    (h5 : 0 ≤ cfg.steerChangePenalty) :
    current.data.trajCost ≤ (calculateNodeCost cfg current next rs).data.trajCost := by
  rw [calculateNodeCost_trajCost]
  refine le_add_of_nonneg_right ?_
  have hbase : (0 : α) ≤
      (if next.data.direction then cfg.xyGridResolution
       else cfg.xyGridResolution * cfg.backPenalty) := by
    split
    · exact h1
    · exact mul_nonneg h1 h2
  have hgear : (0 : α) ≤
      (if current.data.direction ≠ next.data.direction then cfg.gearSwitchPenalty
       else 0) := by
    split
    · exact h3
    · exact le_refl 0
  exact add_nonneg (add_nonneg (add_nonneg hbase hgear)
    (mul_nonneg h4 (abs_nonneg _))) (mul_nonneg h5 (abs_nonneg _))

/-- C4 witness: the amended monotonicity applied at the concrete
configuration `cfgQ` with the start node expanded onto itself. -/
theorem c4_witness_expander :
    startNodeQ.data.trajCost ≤
      (calculateNodeCost cfgQ startNodeQ startNodeQ pathFwd).data.trajCost :=
  c4_amended_monotone cfgQ startNodeQ startNodeQ pathFwd
    (by norm_num [cfgQ]) (by norm_num [cfgQ]) (by norm_num [cfgQ])
    (by norm_num [cfgQ]) (by norm_num [cfgQ])

/-- C9 (confirmed): whenever the start pose or the goal pose fails the
obstacle-overlap validity check, `Plan` returns failure with no populated
result, independently of the loop fuel and of the Reeds-Shepp generator —
the failure happens before the search loop. -/
theorem c9_fail_fast {α Obs : Type} [LinearOrderedField α] [FloorRing α]
    (env : Env α Obs) (fuel : ℕ) (sx sy sphi ex ey ephi : α)
    (h : validityCheck env.obstacles env.overlap sx sy sphi = false ∨
         validityCheck env.obstacles env.overlap ex ey ephi = false) :
    plan env fuel sx sy sphi ex ey ephi = none := by
  have hinit : initSearch env sx sy sphi ex ey ephi = none := by
    rcases h with h | h <;> simp [initSearch, h]
  simp [plan, planFinalNode, hinit]

/-- C9 witness: the theorem applied to the environment whose obstacle
overlaps every pose, so the start check fails. -/
theorem c9_witness_concrete : plan envStartBlocked 3 0 0 0 1 0 0 = none :=
  c9_fail_fast envStartBlocked 3 0 0 0 1 0 0 (Or.inl (by with_unfolding_all rfl))

theorem expandPrim_closeSet {α Obs : Type} [LinearOrderedField α] [FloorRing α]
    (env : Env α Obs) (ex ey ephi : α) (current : Node3d α) (s : SearchState α)
    (i : ℕ) : (expandPrim env ex ey ephi current s i).closeSet = s.closeSet := by
  simp only [expandPrim]
  split
  · rfl
  · split
    · rfl
    · split
      · split
        · rfl
        · rfl
      · rfl

theorem expandPrim_cache_mono {α Obs : Type} [LinearOrderedField α] [FloorRing α]
    (env : Env α Obs) (ex ey ephi : α) (current : Node3d α) (s : SearchState α)
    (i : ℕ) {k : GridKey} (h : (afind? s.cache k).isSome) :
    (afind? (expandPrim env ex ey ephi current s i).cache k).isSome := by
  simp only [expandPrim]
  split
  · exact h
  · split
    · exact h
    · split
      · split
        · exact h
        · exact afind?_ainsert_mono _ _ h
      · exact h

theorem expandPrim_open_mono {α Obs : Type} [LinearOrderedField α] [FloorRing α]
    (env : Env α Obs) (ex ey ephi : α) (current : Node3d α) (s : SearchState α)
    (i : ℕ) {k : GridKey} (h : (afind? s.openSet k).isSome) :
    (afind? (expandPrim env ex ey ephi current s i).openSet k).isSome := by
  simp only [expandPrim]
  split
  · exact h
  · split
    · exact h
    · split
      · split
        · exact h
        · exact afind?_ainsert_mono _ _ h
      · exact h

theorem expandPrim_open_new {α Obs : Type} [LinearOrderedField α] [FloorRing α]
    (env : Env α Obs) (ex ey ephi : α) (current : Node3d α) (s : SearchState α)
    (i : ℕ) {k : GridKey}
    (h : (afind? (expandPrim env ex ey ephi current s i).openSet k).isSome) :
    (afind? s.openSet k).isSome ∨ afind? s.closeSet k = none := by
  revert h
  simp only [expandPrim]
  split
  · exact fun h => Or.inl h
  · by_cases hclose :
      (afind? s.closeSet (Node3d.index env.cfg (nextNodeGenerator env.cfg current i))).isSome = true
    · rw [if_pos hclose]
      exact fun h => Or.inl h
    · rw [if_neg hclose]
      split
      · split
        · exact fun h => Or.inl h
        · intro h
          rcases (afind?_ainsert_isSome _ _ _ _).1 h with heq | hq
          · subst heq
            exact Or.inr (Option.not_isSome_iff_eq_none.1 (by simpa using hclose))
          · exact Or.inl hq
      · exact fun h => Or.inl h

theorem afind?_ainsert_eq_some {κ ν : Type} [DecidableEq κ] {l : List (κ × ν)}
    {k q : κ} {v w : ν} (h : afind? (ainsert l k v) q = some w) :
    (q = k ∧ w = v) ∨ afind? l q = some w := by
  unfold ainsert at h
  cases hl : afind? l k with
  | some u => rw [hl] at h; exact Or.inr h
  | none =>
    rw [hl] at h
    unfold afind? at h
    by_cases hk : k = q
    · rw [if_pos hk] at h
      exact Or.inl ⟨hk.symm, (Option.some_injective _ h).symm⟩
    · rw [if_neg hk] at h
      exact Or.inr h

theorem expandFold_closeSet {α Obs : Type} [LinearOrderedField α] [FloorRing α]
    (env : Env α Obs) (ex ey ephi : α) (current : Node3d α) :
    ∀ (li : List ℕ) (s : SearchState α),
      ((li.foldl (expandPrim env ex ey ephi current) s)).closeSet = s.closeSet := by
  intro li
  induction li with
  | nil => intro s; rfl
  | cons a as ih =>
    intro s
    rw [List.foldl_cons, ih, expandPrim_closeSet]

theorem expandFold_open_mono {α Obs : Type} [LinearOrderedField α] [FloorRing α]
    (env : Env α Obs) (ex ey ephi : α) (current : Node3d α) :
    ∀ (li : List ℕ) (s : SearchState α) {k : GridKey},
      (afind? s.openSet k).isSome →
      (afind? ((li.foldl (expandPrim env ex ey ephi current) s)).openSet k).isSome := by
  intro li
  induction li with
  | nil => intro s k h; exact h
  | cons a as ih =>
    intro s k h
    rw [List.foldl_cons]
    exact ih _ (expandPrim_open_mono env ex ey ephi current s a h)

theorem expandFold_cache_mono {α Obs : Type} [LinearOrderedField α] [FloorRing α]
    (env : Env α Obs) (ex ey ephi : α) (current : Node3d α) :
    ∀ (li : List ℕ) (s : SearchState α) {k : GridKey},
      (afind? s.cache k).isSome →
      (afind? ((li.foldl (expandPrim env ex ey ephi current) s)).cache k).isSome := by
  intro li
  induction li with
  | nil => intro s k h; exact h
  | cons a as ih =>
    intro s k h
    rw [List.foldl_cons]
    exact ih _ (expandPrim_cache_mono env ex ey ephi current s a h)

theorem expandFold_open_new {α Obs : Type} [LinearOrderedField α] [FloorRing α]
    (env : Env α Obs) (ex ey ephi : α) (current : Node3d α) :
    ∀ (li : List ℕ) (s : SearchState α) {k : GridKey},
      (afind? ((li.foldl (expandPrim env ex ey ephi current) s)).openSet k).isSome →
      (afind? s.openSet k).isSome ∨ afind? s.closeSet k = none := by
  intro li
  induction li with
  | nil => intro s k h; exact Or.inl h
  | cons a as ih =>
    intro s k h
    rw [List.foldl_cons] at h
    rcases ih _ h with h1 | h1
    · rcases expandPrim_open_new env ex ey ephi current s a h1 with h2 | h2
      · exact Or.inl h2
      · exact Or.inr h2
    · rw [expandPrim_closeSet] at h1
      exact Or.inr h1

theorem expandPrim_good {α Obs : Type} [LinearOrderedField α] [FloorRing α]
    (env : Env α Obs) (ex ey ephi : α) (current : Node3d α) (s : SearchState α)
    (i : ℕ) (hg : GoodState env.cfg s) :
    GoodState env.cfg (expandPrim env ex ey ephi current s i) := by
  obtain ⟨hidx, hpq⟩ := hg
  simp only [expandPrim]
  split
  · exact ⟨hidx, hpq⟩
  · split
    · exact ⟨hidx, hpq⟩
    · split
      · split
        · exact ⟨hidx, hpq⟩
        · rename_i rsp heq
          constructor
          · intro k n hkn
            rcases afind?_ainsert_eq_some hkn with ⟨rfl, rfl⟩ | hold
            · exact calculateNodeCost_index env.cfg current _ rsp
            · exact hidx k n hold
          · intro e he
            rcases List.mem_cons.1 he with rfl | he2
            · constructor
              · exact afind?_ainsert_self _ _ _
              · exact afind?_ainsert_self _ _ _
            · obtain ⟨ho, hc⟩ := hpq e he2
              exact ⟨afind?_ainsert_mono _ _ ho, afind?_ainsert_mono _ _ hc⟩
      · exact ⟨hidx, hpq⟩

theorem expandFold_good {α Obs : Type} [LinearOrderedField α] [FloorRing α]
    (env : Env α Obs) (ex ey ephi : α) (current : Node3d α) :
    ∀ (li : List ℕ) (s : SearchState α), GoodState env.cfg s →
      GoodState env.cfg ((li.foldl (expandPrim env ex ey ephi current) s)) := by
  intro li
  induction li with
  | nil => intro s hg; exact hg
  | cons a as ih =>
    intro s hg
    rw [List.foldl_cons]
    exact ih _ (expandPrim_good env ex ey ephi current s a hg)

theorem stepLoop_stepped_elim {α Obs : Type} [LinearOrderedField α] [FloorRing α]
    (env : Env α Obs) (ex ey ephi : α) (s s1 : SearchState α)
    (h : stepLoop env ex ey ephi s = .stepped s1) :
    ∃ (id : GridKey) (c : α) (rest : List (GridKey × α)) (cur : Node3d α),
      popMin s.pq = some ((id, c), rest) ∧
      afind? s.openSet id = some cur ∧
      s1 = (List.range env.cfg.nextNodeNum).foldl
            (expandPrim env ex ey ephi cur)
            { s with pq := rest,
                     closeSet := ainsert s.closeSet (Node3d.index env.cfg cur) cur } := by
  unfold stepLoop at h
  cases hpop : popMin s.pq with
  | none => rw [hpop] at h; simp at h
  | some pr =>
    obtain ⟨⟨id, c⟩, rest⟩ := pr
    rw [hpop] at h
    simp only [] at h
    cases hopen : afind? s.openSet id with
    | none =>
      rw [hopen] at h
      simp at h
    | some cur =>
      rw [hopen] at h
      simp only [] at h
      cases hcache : afind? s.cache (Node3d.index env.cfg cur) with
      | none =>
        rw [hcache] at h
        simp at h
      | some rsp =>
        rw [hcache] at h
        simp only [] at h
        by_cases hck : rspCheck env.obstacles env.overlap rsp = true
        · rw [if_pos hck] at h; simp at h
        · rw [if_neg hck] at h
          simp only [StepOut.stepped.injEq] at h
          exact ⟨id, c, rest, cur, rfl, hopen, h.symm⟩

theorem stepLoop_good {α Obs : Type} [LinearOrderedField α] [FloorRing α]
    (env : Env α Obs) (ex ey ephi : α) {s s1 : SearchState α}
    (hg : GoodState env.cfg s) (h : stepLoop env ex ey ephi s = .stepped s1) :
    GoodState env.cfg s1 := by
  obtain ⟨id, c, rest, cur, hpop, hopen, hs1⟩ := stepLoop_stepped_elim env ex ey ephi s s1 h
  subst hs1
  refine expandFold_good env ex ey ephi cur _ _ ⟨hg.1, ?_⟩
  intro e he
  exact hg.2 e (popMin_rest_mem hpop he)

theorem stepLoop_no_crash {α Obs : Type} [LinearOrderedField α] [FloorRing α]
    (env : Env α Obs) (ex ey ephi : α) {s : SearchState α}
    (hg : GoodState env.cfg s) : stepLoop env ex ey ephi s ≠ StepOut.crash := by
  unfold stepLoop
  cases hpop : popMin s.pq with
  | none => simp
  | some pr =>
    obtain ⟨⟨id, c⟩, rest⟩ := pr
    simp only []
    obtain ⟨ho, hc⟩ := hg.2 (id, c) (popMin_mem hpop)
    obtain ⟨cur, hcur⟩ := Option.isSome_iff_exists.1 ho
    rw [hcur]
    simp only []
    have hidx : Node3d.index env.cfg cur = id := hg.1 id cur hcur
    rw [hidx]
    obtain ⟨rsp, hrsp⟩ := Option.isSome_iff_exists.1 hc
    rw [hrsp]
    simp only []
    split <;> simp

theorem initSearch_good {α Obs : Type} [LinearOrderedField α] [FloorRing α]
    (env : Env α Obs) (sx sy sphi ex ey ephi : α) (s0 : SearchState α)
    (h : initSearch env sx sy sphi ex ey ephi = some s0) :
    GoodState env.cfg s0 := by
  unfold initSearch at h
  by_cases h1 : validityCheck env.obstacles env.overlap sx sy sphi = true
  · rw [if_pos h1] at h
    by_cases h2 : validityCheck env.obstacles env.overlap ex ey ephi = true
    · rw [if_pos h2] at h
      simp only [] at h
      cases hrs : env.shortestRSP sx sy sphi ex ey ephi with
      | none => rw [hrs] at h; simp at h
      | some p0 =>
        rw [hrs] at h
        simp only [Option.some.injEq] at h
        subst h
        constructor
        · intro k n hkn
          dsimp only at hkn
          rcases afind?_ainsert_eq_some hkn with ⟨rfl, rfl⟩ | hold
          · rfl
          · exact Option.noConfusion hold
        · intro e he
          simp only [List.mem_singleton] at he
          subst he
          constructor
          · simp [ainsert, afind?]
          · simp [ainsert, afind?]
    · rw [if_neg h2] at h; simp at h
  · rw [if_neg h1] at h; simp at h

theorem reachable_good {α Obs : Type} [LinearOrderedField α] [FloorRing α]
    (env : Env α Obs) (ex ey ephi : α) {s0 s : SearchState α}
    (h0 : GoodState env.cfg s0) (hr : Reachable env ex ey ephi s0 s) :
    GoodState env.cfg s := by
  induction hr with
  | refl => exact h0
  | tail hr hstep ih => exact stepLoop_good env ex ey ephi ih hstep

/-- C3 (counterexample): in the `envBlockedRSP` plan invocation (start and
goal valid, analytic Reeds-Shepp curve blocked by an obstacle), after the
first loop iteration the start node's index key is present in the open map
and in the closed map simultaneously: the code never erases popped keys from
the open map, contradicting the claimed mutual exclusion. -/
theorem c3_counterexample_both_sets : c3Violation = true := by
  with_unfolding_all rfl

/-- C3 (amended): during one `Plan` invocation, moving a popped node to the
closed map does not remove its key from the open map (the key ends up in
both maps); the open map only grows across a loop iteration; and every key
newly inserted into the open map during an iteration is absent from the
closed map at the end of that iteration — in particular a key already in
the closed map never gets a new open-map insertion. -/
theorem c3_amended_invariant {α Obs : Type} [LinearOrderedField α] [FloorRing α]
    (env : Env α Obs) (sx sy sphi ex ey ephi : α) (s0 s s1 : SearchState α)
    (hinit : initSearch env sx sy sphi ex ey ephi = some s0)
    (hreach : Reachable env ex ey ephi s0 s)
    (hstep : stepLoop env ex ey ephi s = .stepped s1) :
    (∀ k : GridKey, (afind? s.openSet k).isSome → (afind? s1.openSet k).isSome) ∧
    (∀ (k : GridKey) (c : α) (rest : List (GridKey × α)),
      popMin s.pq = some ((k, c), rest) →
      (afind? s1.openSet k).isSome ∧ (afind? s1.closeSet k).isSome) ∧
    (∀ k : GridKey, (afind? s1.openSet k).isSome → ¬ (afind? s.openSet k).isSome →
      afind? s1.closeSet k = none) := by
  have hg := reachable_good env ex ey ephi
    (initSearch_good env sx sy sphi ex ey ephi s0 hinit) hreach
  obtain ⟨id, c, rest, cur, hpop, hopen, hs1⟩ :=
    stepLoop_stepped_elim env ex ey ephi s s1 hstep
  have hidx : Node3d.index env.cfg cur = id := hg.1 id cur hopen
  refine ⟨?_, ?_, ?_⟩
  · intro k hk
    rw [hs1]
    exact expandFold_open_mono env ex ey ephi cur _ _ hk
  · intro k c2 rest2 hpop2
    rw [hpop] at hpop2
    have hk : k = id := by
      have := (Option.some_injective _ hpop2).symm
      exact congrArg (fun pr => pr.1.1) this
    subst hk
    constructor
    · rw [hs1]
      exact expandFold_open_mono env ex ey ephi cur _ _
        (by rw [hopen]; rfl)
    · rw [hs1, expandFold_closeSet]
      show (afind? (ainsert s.closeSet (Node3d.index env.cfg cur) cur) k).isSome
      rw [hidx]
      exact afind?_ainsert_self _ _ _
  · intro k hk1 hk0
    rw [hs1] at hk1
    rcases expandFold_open_new env ex ey ephi cur _ _ hk1 with h1 | h1
    · exact absurd h1 hk0
    · rw [hs1, expandFold_closeSet]
      exact h1

/-- C3 witness: the amended invariant instantiated on the first loop
iteration of the `envBlockedK0` run. -/
theorem c3_witness_step :
    (∀ k : GridKey, (afind? c3wState0.openSet k).isSome → (afind? c3wState1.openSet k).isSome) ∧
    (∀ (k : GridKey) (c : ℚ) (rest : List (GridKey × ℚ)),
      popMin c3wState0.pq = some ((k, c), rest) →
      (afind? c3wState1.openSet k).isSome ∧ (afind? c3wState1.closeSet k).isSome) ∧
    (∀ k : GridKey, (afind? c3wState1.openSet k).isSome → ¬ (afind? c3wState0.openSet k).isSome →
      afind? c3wState1.closeSet k = none) :=
  c3_amended_invariant envBlockedK0 0 0 0 10 0 0 c3wState0 c3wState0 c3wState1
    (by with_unfolding_all rfl) (Reachable.refl _) (by with_unfolding_all rfl)

/-- C10 (confirmed): in any reachable state of the search loop, every entry
popped from the priority queue has a node stored in the open map under its
key, and the Reeds-Shepp cache holds an entry under that node's index key —
an entry was cached for the start node before the loop and for every
successor when it was inserted into the open set — so the unchecked cache
lookup (and dereference) of `AnalyticExpansion` never sees a missing (null)
entry: the loop step never crashes. -/
theorem c10_cache_hit {α Obs : Type} [LinearOrderedField α] [FloorRing α]
    (env : Env α Obs) (sx sy sphi ex ey ephi : α) (s0 s : SearchState α)
    (hinit : initSearch env sx sy sphi ex ey ephi = some s0)
    (hreach : Reachable env ex ey ephi s0 s) :
    (∀ (k : GridKey) (c : α) (rest : List (GridKey × α)),
      popMin s.pq = some ((k, c), rest) →
      ∃ cur : Node3d α, afind? s.openSet k = some cur ∧
        (afind? s.cache (Node3d.index env.cfg cur)).isSome) ∧
    stepLoop env ex ey ephi s ≠ StepOut.crash := by
  have hg := reachable_good env ex ey ephi
    (initSearch_good env sx sy sphi ex ey ephi s0 hinit) hreach
  constructor
  · intro k c rest hpop
    obtain ⟨ho, hc⟩ := hg.2 (k, c) (popMin_mem hpop)
    obtain ⟨cur, hcur⟩ := Option.isSome_iff_exists.1 ho
    refine ⟨cur, hcur, ?_⟩
    rw [hg.1 k cur hcur]
    exact hc
  · exact stepLoop_no_crash env ex ey ephi hg

/-- C10 witness: the theorem instantiated at the freshly initialized state of
the `envTwoSamples` run (start = goal = (0,0,0), no obstacles). -/
theorem c10_witness_concrete :
    (∀ (k : GridKey) (c : ℚ) (rest : List (GridKey × ℚ)),
      popMin initStateQ.pq = some ((k, c), rest) →
      ∃ cur : Node3d ℚ, afind? initStateQ.openSet k = some cur ∧
        (afind? initStateQ.cache (Node3d.index envTwoSamples.cfg cur)).isSome) ∧
    stepLoop envTwoSamples 0 0 0 initStateQ ≠ StepOut.crash :=
  c10_cache_hit envTwoSamples 0 0 0 0 0 0 initStateQ initStateQ
    (by with_unfolding_all rfl) (Reachable.refl _)

theorem validityCheck_nil {α Obs : Type} (overlap : α → α → α → Obs → Bool)
    (x y phi : α) : validityCheck ([] : List Obs) overlap x y phi = true := rfl

theorem rspCheck_nil {α Obs : Type} (overlap : α → α → α → Obs → Bool)
    (p : ReedSheppPath α) : rspCheck ([] : List Obs) overlap p = true := by
  unfold rspCheck
  exact List.all_eq_true.2 (fun x hx => rfl)


theorem collectPath_loadRSP {α : Type} [LinearOrderedField α] (cfg : Config α)
    (p : ReedSheppPath α) (startD : NodeData α)
    (hx : p.x.length ≠ 0) (hy : p.y.length ≠ 0) (hphi : p.phi.length ≠ 0) :
    collectPath (loadRSPinCS cfg p (Node3d.base startD)) =
      some (p.x.reverse.dropLast ++ [startD.x],
            p.y.reverse.dropLast ++ [startD.y],
            p.phi.reverse.dropLast ++ [startD.phi]) := by
  simp only [loadRSPinCS, Node3d.setTrajCost, Node3d.mapData, collectPath]
  rw [if_neg]
  · rfl
  · dsimp only [mkNodeData]
    push_neg
    exact ⟨hx, hy, hphi⟩

theorem getResult_core {α : Type} [LinearOrderedField α] (cfg : Config α)
    (final : Node3d α) (xs ys phis : List α)
    (hc : collectPath final = some (xs, ys, phis))
    (hylen : ys.length = xs.length) (hplen : phis.length = xs.length)
    (h2 : 2 ≤ xs.length) :
    (getResult cfg final).isSome = true := by
  unfold getResult
  rw [hc]
  simp only []
  rw [generateSpeedAcceleration_eq cfg
    { x := xs, y := ys, phi := phis, v := [], a := [], steer := [] }
    h2 (by dsimp only; omega) (by dsimp only; omega)]
  simp only []
  have hxx : ({ x := xs, y := ys, phi := phis, v := [], a := [], steer := [] } :
      Result α).x = xs := rfl
  split
  · rename_i hcond
    exfalso
    rw [length_speedSamples, hxx] at hcond
    rcases hcond with h | h | h <;> omega
  · split
    · rename_i hcond
      exfalso
      rw [length_accelSamples, length_steerSamples, hxx] at hcond
      rcases hcond with h | h <;> omega
    · rfl

theorem afind?_ainsert_nil {κ ν : Type} [DecidableEq κ] (k : κ) (v : ν) :
    afind? (ainsert [] k v) k = some v := by
  show afind? [(k, v)] k = some v
  unfold afind?
  rw [if_pos rfl]

theorem stepLoop_first_finished {α Obs : Type} [LinearOrderedField α] [FloorRing α]
    (env : Env α Obs) (ex ey ephi : α) (startN : Node3d α) (p : ReedSheppPath α)
    (hobs : env.obstacles = []) (c : α) :
    stepLoop env ex ey ephi
      { openSet := ainsert [] (Node3d.index env.cfg startN) startN, closeSet := [],
        cache := ainsert [] (Node3d.index env.cfg startN) p,
        pq := [(Node3d.index env.cfg startN, c)] } =
      .finished
        { openSet := ainsert [] (Node3d.index env.cfg startN) startN,
          closeSet := ainsert [] (Node3d.index env.cfg (loadRSPinCS env.cfg p startN))
            (loadRSPinCS env.cfg p startN),
          cache := ainsert [] (Node3d.index env.cfg startN) p, pq := [] }
        (loadRSPinCS env.cfg p startN) := by
  unfold stepLoop
  rw [show popMin [(Node3d.index env.cfg startN, c)] =
    some ((Node3d.index env.cfg startN, c), []) from rfl]
  simp only []
  rw [afind?_ainsert_nil]
  simp only []
  rw [afind?_ainsert_nil]
  simp only []
  rw [if_pos (by rw [hobs]; exact rspCheck_nil env.overlap p)]

/-- C8 (counterexample): with start = goal = (0,0,0), no obstacles, and a
Reeds-Shepp generator that returns the one-sample zero-motion path, `Plan`
returns failure (the reconstructed pose arrays have a single sample and
`GenerateSpeedAcceleration` requires at least two), contradicting the claim
that `Plan` succeeds with a trivial one-sample path. -/
theorem c8_counterexample_one_sample : plan envOneSample 1 0 0 0 0 0 0 = none := by
  with_unfolding_all rfl

/-- C8 (amended): whenever start = goal, the obstacle set is empty, and the
Reeds-Shepp generator returns a path whose (equal-length) sample arrays have
at least two samples, `Plan` succeeds on the first pop via the analytic
expansion; with fewer than two samples the reconstruction fails and `Plan`
returns false (see the counterexample). -/
theorem c8_amended_success {α Obs : Type} [LinearOrderedField α] [FloorRing α]
    (env : Env α Obs) (f : ℕ) (sx sy sphi : α) (p : ReedSheppPath α)
    (hobs : env.obstacles = [])
    (hrs : env.shortestRSP sx sy sphi sx sy sphi = some p)
    (hy : p.y.length = p.x.length) (hphi : p.phi.length = p.x.length)
    (h2 : 2 ≤ p.x.length) :
    (plan env (f + 1) sx sy sphi sx sy sphi).isSome = true := by
  have hvc : validityCheck env.obstacles env.overlap sx sy sphi = true := by
    rw [hobs]; rfl
  have hinit : initSearch env sx sy sphi sx sy sphi =
      some { openSet := ainsert []
               (Node3d.index env.cfg (Node3d.base (mkNodeData sx sy sphi [sx] [sy] [sphi])))
               (Node3d.base (mkNodeData sx sy sphi [sx] [sy] [sphi])),
             closeSet := [],
             cache := ainsert []
               (Node3d.index env.cfg (Node3d.base (mkNodeData sx sy sphi [sx] [sy] [sphi]))) p,
             pq := [(Node3d.index env.cfg (Node3d.base (mkNodeData sx sy sphi [sx] [sy] [sphi])),
                     (Node3d.base (mkNodeData sx sy sphi [sx] [sy] [sphi])).cost)] } := by
    unfold initSearch
    rw [if_pos hvc, if_pos hvc, hrs]
  unfold plan planFinalNode
  rw [hinit]
  simp only []
  unfold runLoop
  rw [stepLoop_first_finished env sx sy sphi
    (Node3d.base (mkNodeData sx sy sphi [sx] [sy] [sphi])) p hobs _]
  simp only []
  exact getResult_core env.cfg _ _ _ _
    (collectPath_loadRSP env.cfg p (mkNodeData sx sy sphi [sx] [sy] [sphi])
      (by omega) (by omega) (by omega))
    (by simp; omega) (by simp; omega) (by simp; omega)

/-- C8 witness: the amended theorem applied to `envTwoSamples`
(start = goal = (0,0,0), two-sample zero-motion Reeds-Shepp path). -/
theorem c8_witness_concrete : (plan envTwoSamples 1 0 0 0 0 0 0).isSome = true :=
  c8_amended_success envTwoSamples 0 0 0 0 pathTwoSamples rfl rfl rfl rfl
    (by norm_num [pathTwoSamples])
